import Mathlib

/-!
Verification of `scripts/build_sms.py`: an SMS report generator over a cached
Sleeper-league JSON snapshot.  Python values are embedded as a dynamic `PyVal`
type; operations that can raise in Python (attribute access on non-dicts,
numeric formatting of non-numbers, timestamp conversion of non-numbers) are
embedded in `Except Unit`.
-/

mutual
/-- Dynamic Python/JSON value: None, bool, int, str, list, dict.
Dict keys are arbitrary values (the script builds dicts keyed by ids that may
be ints, strings or None).  Numeric values are modelled with `Int`. -/
inductive PyVal where
  | none : PyVal
  | bool : Bool → PyVal
  | int : Int → PyVal
  | str : String → PyVal
  | list : PyList → PyVal
  | dict : PyDict → PyVal
  deriving DecidableEq

/-- A Python list of `PyVal`s (mutual with `PyVal`). -/
inductive PyList where
  | nil : PyList
  | cons : PyVal → PyList → PyList
  deriving DecidableEq

/-- A Python dict as an ordered association list (mutual with `PyVal`). -/
inductive PyDict where
  | nil : PyDict
  | cons : PyVal → PyVal → PyDict → PyDict
  deriving DecidableEq
end

/-- Convert an embedded Python list to a Lean list. -/
def PyList.toList : PyList → List PyVal
  | .nil => []
  | .cons x xs => x :: xs.toList

/-- Convert a Lean list to an embedded Python list. -/
def PyList.ofList : List PyVal → PyList
  | [] => .nil
  | x :: xs => .cons x (PyList.ofList xs)

/-- Convert an embedded Python dict to a Lean association list. -/
def PyDict.toList : PyDict → List (PyVal × PyVal)
  | .nil => []
  | .cons k v xs => (k, v) :: xs.toList

/-- Convert a Lean association list to an embedded Python dict. -/
def PyDict.ofList : List (PyVal × PyVal) → PyDict
  | [] => .nil
  | (k, v) :: xs => .cons k v (PyDict.ofList xs)

/-- Build a `PyVal` list from a Lean list (concrete-value helper). -/
def pyL (xs : List PyVal) : PyVal := .list (PyList.ofList xs)

/-- Build a `PyVal` dict from a Lean association list (concrete-value helper). -/
def pyD (xs : List (PyVal × PyVal)) : PyVal := .dict (PyDict.ofList xs)

/-- Python truthiness: None/False/0/""/[]/{} are falsy, everything else truthy. -/
def truthy : PyVal → Bool
  | .none => false
  | .bool b => b
  | .int n => n != 0
  | .str s => s ≠ ""
  | .list .nil => false
  | .list _ => true
  | .dict .nil => false
  | .dict _ => true

mutual
/-- Python `repr` of a value (used by `str` on containers). -/
def pyRepr : PyVal → String
  | .none => "None"
  | .bool true => "True"
  | .bool false => "False"
  | .int n => toString n
  | .str s => "'" ++ s ++ "'"
  | .list xs => "[" ++ String.intercalate ", " (pyReprList xs) ++ "]"
  | .dict xs => "\x7b" ++ String.intercalate ", " (pyReprDict xs) ++ "\x7d"

def pyReprList : PyList → List String
  | .nil => []
  | .cons x xs => pyRepr x :: pyReprList xs

def pyReprDict : PyDict → List String
  | .nil => []
  | .cons k v xs => (pyRepr k ++ ": " ++ pyRepr v) :: pyReprDict xs
end

/-- Python `str()`: identity on strings, `repr`-like on everything else. -/
def pyStr : PyVal → String
  | .str s => s
  | v => pyRepr v

example : pyStr .none = "None" := by decide
example : pyStr (.int 7) = "7" := by decide
example : truthy (.str "") = false := by decide
example : pyStr (pyL [.int 1, .str "a"]) = "[1, 'a']" := by decide

/-- Lookup in an embedded Python dict (first matching key). -/
def pyDictFind : PyDict → PyVal → Option PyVal
  | .nil, _ => Option.none
  | .cons k v rest, key => if k = key then some v else pyDictFind rest key

/-- Python `x.get(k)`: returns the value (default `None`) when `x` is a dict,
raises `AttributeError` otherwise. -/
def dGet (x : PyVal) (k : PyVal) : Except Unit PyVal :=
  match x with
  | .dict d => .ok ((pyDictFind d k).getD .none)
  | _ => .error ()

/-- Python `x.get(k, dflt)`: like `dGet` but with an explicit default. -/
def dGetD (x : PyVal) (k dflt : PyVal) : Except Unit PyVal :=
  match x with
  | .dict d => .ok ((pyDictFind d k).getD dflt)
  | _ => .error ()

/-- Python `a or b` where evaluating either side may raise: short-circuits on a
truthy left value, otherwise evaluates the right side. -/
def pyOrE (a : Except Unit PyVal) (b : Unit → Except Unit PyVal) : Except Unit PyVal := do
  let va ← a
  if truthy va then pure va else b ()

/-- Python `a or b` on already-evaluated values. -/
def pyOrV (a b : PyVal) : PyVal := if truthy a then a else b

/-- `is_listlike(x)` from the script (tuples do not occur in parsed JSON). -/
def is_listlike : PyVal → Bool
  | .list _ => true
  | _ => false

/-- Whether a value is a Python dict (rows must be dicts for `.get` not to
raise). -/
def isDict : PyVal → Bool
  | .dict _ => true
  | _ => false

/-- `as_list(x)` from the script: `None → []`, a list stays itself, anything
else becomes a one-element list. -/
def as_list (x : PyVal) : List PyVal :=
  match x with
  | .none => []
  | .list xs => xs.toList
  | v => [v]

/-- The inner `flatten` of `safe_matchup_chunks`: splices nested lists one
level deep. -/
def flatten (xs : List PyVal) : List PyVal :=
  xs.foldl (fun out x =>
    match x with
    | .list ys => out ++ ys.toList
    | v => out ++ [v]) []

/-- `safe_matchup_chunks(j)` from the script: accepts `j["matchups"]` as a
dict with "current"/"next" keys, as a bare list (treated as current), or
anything else (empty); flattens nested single-level lists. -/
def safe_matchup_chunks (j : PyVal) : Except Unit (List PyVal × List PyVal) := do
  let matchups ← dGet j (.str "matchups")
  let raws :=
    match matchups with
    | .dict d =>
        (as_list ((pyDictFind d (.str "current")).getD .none),
         as_list ((pyDictFind d (.str "next")).getD .none))
    | .list xs => (xs.toList, [])
    | _ => ([], [])
  pure (flatten raws.1, flatten raws.2)

/-- The grouping key of a matchup row as computed in `pair_by_matchup_id`:
`str(m.get("matchup_id"))`; raises when the row is not a dict. -/
def rowKeyE (m : PyVal) : Except Unit String := do
  let v ← dGet m (.str "matchup_id")
  pure (pyStr v)

/-- Total version of `rowKeyE` (agrees with it on dict rows). -/
def rowKey (m : PyVal) : String :=
  pyStr (match m with
    | .dict d => (pyDictFind d (.str "matchup_id")).getD .none
    | _ => .none)

/-- One step of `by[str(key)].append(m)` on an insertion-ordered dict of
buckets: append to the existing bucket for `k`, or add a new `(k, [m])`
entry at the end. -/
def addRow (acc : List (String × List PyVal)) (k : String) (m : PyVal) :
    List (String × List PyVal) :=
  if acc.any (fun e => e.1 = k) then
    acc.map (fun e => if e.1 = k then (e.1, e.2 ++ [m]) else e)
  else acc ++ [(k, [m])]

/-- The first loop of `pair_by_matchup_id`: builds the insertion-ordered
buckets `by`. -/
def groupRows (rows : List PyVal) : Except Unit (List (String × List PyVal)) :=
  rows.foldlM (fun acc m => do
    let k ← rowKeyE m
    pure (addRow acc k m)) []

/-- Total version of `groupRows` (agrees with it when all rows are dicts). -/
def groupRowsCore (rows : List PyVal) : List (String × List PyVal) :=
  rows.foldl (fun acc m => addRow acc (rowKey m) m) []

/-- The second loop of `pair_by_matchup_id`: a bucket of two or more rows
yields its first two rows; a singleton bucket is padded with the empty dict
`{}`; an empty bucket yields nothing. -/
def bucketsToPairs (bs : List (String × List PyVal)) : List (PyVal × PyVal) :=
  bs.foldl (fun pairs e =>
    match e.2 with
    | a :: b :: _ => pairs ++ [(a, b)]
    | [a] => pairs ++ [(a, .dict .nil)]
    | [] => pairs) []

/-- `pair_by_matchup_id(rows)` from the script. -/
def pair_by_matchup_id (rows : List PyVal) : Except Unit (List (PyVal × PyVal)) := do
  let bs ← groupRows rows
  pure (bucketsToPairs bs)

/-- The diagnostic messages `pair_by_matchup_id` emits while grouping: the
source contains no logging or printing statement anywhere in the function,
so its emitted log is empty for every input. -/
def pair_by_matchup_id_messages (_ : List PyVal) : List String := []

/-- Lookup in a Lean-side association list built by the script (Python dicts
keyed by id values). -/
def assocFind : List (PyVal × PyVal) → PyVal → Option PyVal
  | [], _ => Option.none
  | (k, v) :: rest, key => if k = key then some v else assocFind rest key

/-- Python `d[k] = v` on an insertion-ordered dict: overwrite in place if the
key exists, else append. -/
def dictSet (d : List (PyVal × PyVal)) (k v : PyVal) : List (PyVal × PyVal) :=
  if (assocFind d k).isSome then d.map (fun e => if e.1 = k then (k, v) else e)
  else d ++ [(k, v)]

/-- The `nm` expression of the users loop in `roster_owner_maps`:
`(u.get("metadata", {}) or {}).get("team_name") or u.get("display_name")
or u.get("username") or f"user_{u.get('user_id','?')}"`. -/
def userNameOf (u : PyVal) : Except Unit PyVal :=
  pyOrE (do
      let md ← dGetD u (.str "metadata") (.dict .nil)
      dGet (pyOrV md (.dict .nil)) (.str "team_name"))
    (fun _ => pyOrE (dGet u (.str "display_name"))
    (fun _ => pyOrE (dGet u (.str "username"))
    (fun _ => do
      let uid ← dGetD u (.str "user_id") (.str "?")
      pure (.str ("user_" ++ pyStr uid)))))

/-- `roster_owner_maps(users, rosters)` from the script: builds
`user_id → name` from the users, then `roster_id → name` from the rosters,
with `user_name.get(uid) or f"Team {rid}"` as the roster-level value. -/
def roster_owner_maps (users rosters : PyVal) : Except Unit (List (PyVal × PyVal)) := do
  let user_name ← (as_list users).foldlM (fun acc u => do
      let nm ← userNameOf u
      let uid ← dGet u (.str "user_id")
      pure (dictSet acc uid nm)) []
  let rid_to_user ← (as_list rosters).foldlM (fun acc r => do
      let rid ← dGet r (.str "roster_id")
      let uid ← dGet r (.str "owner_id")
      let nm := pyOrV ((assocFind user_name uid).getD .none)
                      (.str ("Team " ++ pyStr rid))
      pure (dictSet acc rid nm)) []
  pure rid_to_user

/-- `nice_team(rid, rid_to_user)` from the script:
`rid_to_user.get(rid, f"Team {rid or '?'}")`. -/
def nice_team (rid : PyVal) (rid_to_user : List (PyVal × PyVal)) : PyVal :=
  (assocFind rid_to_user rid).getD (.str ("Team " ++ pyStr (pyOrV rid (.str "?"))))

/-- Python `format(v, ".1f")` in this integer model: ints (and bools, as an
int subclass) render with one decimal place; any other value raises. -/
def pyFmtF1 : PyVal → Except Unit String
  | .int n => .ok (toString n ++ ".0")
  | .bool b => .ok (if b then "1.0" else "0.0")
  | _ => .error ()

/-- The body of the loop in `build_matchup_lines` for one pair `(a, b)`. -/
def matchupLine (a b : PyVal) (rid_to_user : List (PyVal × PyVal)) :
    Except Unit String := do
  let arid ← dGet a (.str "roster_id")
  let an := nice_team arid rid_to_user
  let bn ← if truthy b then do
      let brid ← dGet b (.str "roster_id")
      pure (nice_team brid rid_to_user)
    else pure (PyVal.str "TBD")
  let ap ← pyOrE (dGet a (.str "points"))
    (fun _ => pyOrE (dGet a (.str "starters_points")) (fun _ => pure (.int 0)))
  let bp ← pyOrE (dGet b (.str "points"))
    (fun _ => pyOrE (dGet b (.str "starters_points")) (fun _ => pure (.int 0)))
  if truthy ap || truthy bp then do
    let aps ← pyFmtF1 ap
    let bps ← pyFmtF1 bp
    pure (pyStr an ++ " vs " ++ pyStr bn ++ " â€” " ++ aps ++ "-" ++ bps)
  else
    pure (pyStr an ++ " vs " ++ pyStr bn)

/-- `build_matchup_lines(pairs, rid_to_user)` from the script: one line per
pair, capped at 3 bullets for SMS. -/
def build_matchup_lines (pairs : List (PyVal × PyVal))
    (rid_to_user : List (PyVal × PyVal)) : Except Unit (List String) := do
  let lines ← pairs.mapM (fun p => matchupLine p.1 p.2 rid_to_user)
  pure (lines.take 3)

/-- Python `s + t` where the left side must be a string (`core += f" {pos}"`);
raises `TypeError` otherwise. -/
def pyAddStr : PyVal → String → Except Unit PyVal
  | .str s, t => .ok (.str (s ++ t))
  | _, _ => .error ()

/-- The inner `label(x)` of `trending_blurbs`. -/
def labelOf (x : PyVal) : Except Unit PyVal := do
  let nm ← pyOrE (dGet x (.str "player_name")) (fun _ =>
          pyOrE (dGet x (.str "name")) (fun _ =>
          pyOrE (dGet x (.str "full_name")) (fun _ =>
          dGet x (.str "first_name"))))
  if truthy nm then do
    let pos ← pyOrE (dGet x (.str "position")) (fun _ => dGet x (.str "pos"))
    let tm ← pyOrE (dGet x (.str "team")) (fun _ => dGet x (.str "pro_team"))
    let core := nm
    let core ← if truthy pos then pyAddStr core (" " ++ pyStr pos) else pure core
    let core ← if truthy tm then pyAddStr core (" (" ++ pyStr tm ++ ")") else pure core
    pure core
  else do
    let pid ← dGetD x (.str "player_id") (.str "?")
    pure (.str ("Player " ++ pyStr pid))

/-- The `owned` set built at the top of `trending_blurbs`: all `str(pid)` of
every roster's players list. -/
def owned_set (j : PyVal) : Except Unit (List String) := do
  let rs ← dGet j (.str "rosters")
  (as_list rs).foldlM (fun acc r => do
      let ps ← dGet r (.str "players")
      pure ((as_list ps).foldl (fun a pid =>
        if pyStr pid ∈ a then a else a ++ [pyStr pid]) acc)) []

/-- `trending_blurbs(j, rid_to_user)` from the script: waiver adds (unowned
trending adds, capped at 6), trade-for targets (owned trending adds, capped
at 5) and trade-away candidates (counted drops, de-duplicated, capped at 5).
The `rid_to_user` parameter is accepted but unused, as in the source. -/
def trending_blurbs (j : PyVal) (rid_to_user : List (PyVal × PyVal)) :
    Except Unit (List PyVal × List PyVal × List PyVal) := do
  let _ := rid_to_user
  let owned ← owned_set j
  let tr ← dGetD j (.str "trending") (.dict .nil)
  let addsV ← dGet tr (.str "add")
  let adds := as_list addsV
  let tr2 ← dGetD j (.str "trending") (.dict .nil)
  let dropsV ← dGet tr2 (.str "drop")
  let drops := as_list dropsV
  let waiver_adds ← adds.foldlM (fun acc x => do
      let pidv ← dGet x (.str "player_id")
      let pid := pyStr pidv
      if pid ≠ "" ∧ pid ∉ owned then do
        let lb ← labelOf x
        pure (acc ++ [lb])
      else pure acc) []
  let waiver_adds := if waiver_adds.isEmpty then [] else waiver_adds.take 6
  let trade_for ← adds.foldlM (fun acc x => do
      let pidv ← dGet x (.str "player_id")
      let pid := pyStr pidv
      if pid ≠ "" ∧ pid ∈ owned then do
        let lb ← labelOf x
        pure (acc ++ [lb])
      else pure acc) []
  let trade_for := trade_for.take 5
  let dropKeys ← drops.foldlM (fun acc x => do
      let p ← dGet x (.str "player_id")
      pure (if truthy p then acc ++ [pyStr p] else acc)) ([] : List String)
  let trade_away ← drops.foldlM (fun acc x => do
      let p ← dGet x (.str "player_id")
      if dropKeys.count (pyStr p) ≠ 0 then do
        let lb ← labelOf x
        if truthy lb then pure (acc ++ [lb]) else pure acc
      else pure acc) []
  let trade_away :=
    (trade_away.foldl (fun acc t => if t ∈ acc then acc else acc ++ [t]) []).take 5
  pure (waiver_adds, trade_for, trade_away)

/-- Model of `datetime.fromtimestamp(v, tz=timezone.utc).astimezone()
.strftime("%b %d, %I:%M %p")`: raises `TypeError` unless the timestamp is a
number (an int, or a bool as int subclass, in this model; `None` and strings
raise); for a numeric timestamp the calendar rendering is abstracted as a
pure function of the numeric value (its exact text affects no claim). -/
def strftimeLocal : PyVal → Except Unit String
  | .int n => .ok ("ts:" ++ toString n)
  | .bool b => .ok ("ts:" ++ (if b then "1" else "0"))
  | _ => .error ()

/-- Model of Python `str.strip()`: drop leading and trailing whitespace
characters (implemented over the character list so it evaluates in the
kernel). -/
def pyStrip (s : String) : String :=
  String.mk (((s.data.dropWhile Char.isWhitespace).reverse.dropWhile
    Char.isWhitespace).reverse)

/-- Python `a or b` on two lists (`cur_pairs or nxt_pairs`). -/
def listOr {α : Type} (a b : List α) : List α := if a.isEmpty then b else a

/-- The "Key Matchups" block of `build_sms`: present only when there are
current or next pairs, rendered from `cur_pairs or nxt_pairs`. -/
def key_matchup_section (cur_pairs nxt_pairs : List (PyVal × PyVal))
    (rid_to_user : List (PyVal × PyVal)) : Except Unit (List String) :=
  if cur_pairs.isEmpty && nxt_pairs.isEmpty then pure []
  else do
    let ml ← build_matchup_lines (listOr cur_pairs nxt_pairs) rid_to_user
    pure (["Key Matchups:"] ++ ml.map (fun m => "â€¢ " ++ m) ++ [""])

/-- `build_sms(j)` from the script: headline, timestamp line, key matchups,
waiver adds, trade sections, closer; joined with newlines, stripped, plus a
trailing newline. -/
def build_sms (j : PyVal) : Except Unit String := do
  let leagueRaw ← dGetD j (.str "league") (.dict .nil)
  let league := pyOrV leagueRaw (.dict .nil)
  let lg_name ← pyOrE (dGet league (.str "name")) (fun _ =>
      pyOrE (do
          let md ← dGetD league (.str "metadata") (.dict .nil)
          dGet md (.str "name"))
        (fun _ => pure (.str "League")))
  let stateRaw ← dGetD j (.str "state") (.dict .nil)
  let state := pyOrV stateRaw (.dict .nil)
  let week ← dGet state (.str "week")
  let fetched_at ← dGet j (.str "fetched_at")
  let ts ← strftimeLocal fetched_at
  let usersV ← dGet j (.str "users")
  let users := as_list usersV
  let rostersV ← dGet j (.str "rosters")
  let rosters := as_list rostersV
  let rid_to_user ← roster_owner_maps (pyL users) (pyL rosters)
  let chunks ← safe_matchup_chunks j
  let cur_pairs ← pair_by_matchup_id chunks.1
  let nxt_pairs ← pair_by_matchup_id chunks.2
  let blurbs ← trending_blurbs j rid_to_user
  let waiver_adds := blurbs.1
  let trade_for := blurbs.2.1
  let trade_away := blurbs.2.2
  let kmSec ← key_matchup_section cur_pairs nxt_pairs rid_to_user
  let waSec := if waiver_adds.isEmpty then [] else
    ["Waiver Adds:"] ++ waiver_adds.map (fun w => "â€¢ " ++ pyStr w) ++ [""]
  let tfSec := if trade_for.isEmpty then [] else
    ["Trade For (buy):"] ++ trade_for.map (fun t => "â€¢ " ++ pyStr t)
  let taSec := if trade_away.isEmpty then [] else
    ["Trade Away (sell):"] ++ trade_away.map (fun t => "â€¢ " ++ pyStr t)
  let trSep := if trade_for.isEmpty && trade_away.isEmpty then ([] : List String) else [""]
  let lines := [pyStr lg_name ++ " â€” Week " ++ pyStr week ++ " Preview ðŸ”®",
                "(auto-pulled " ++ ts ++ ")", ""] ++
               kmSec ++ waSec ++ tfSec ++ taSec ++ trSep ++
               ["Good luck. Set lineups, win friends, fleece responsibly ðŸ§€."]
  pure (pyStrip (String.intercalate "\n" lines) ++ "\n")

/-! ### Proof-side helpers for the grouping characterization -/

/-- Accumulator version of `firstSeen`. -/
def firstSeenAux (acc : List String) : List String → List String
  | [] => acc
  | k :: ks => firstSeenAux (if k ∈ acc then acc else acc ++ [k]) ks

/-- The keys of a list in first-seen order, deduplicated. -/
def firstSeen (ks : List String) : List String := firstSeenAux [] ks

/-- The bucket stored for key `k` in an association list of buckets. -/
def bucketOf : List (String × List PyVal) → String → List PyVal
  | [], _ => []
  | e :: rest, k => if e.1 = k then e.2 else bucketOf rest k

/-- The pair a bucket contributes: the first two rows of a bucket of two or
more, a singleton row padded with `{}`, nothing for an empty bucket. -/
def toPair : List PyVal → Option (PyVal × PyVal)
  | a :: b :: _ => some (a, b)
  | [a] => some (a, .dict .nil)
  | [] => Option.none

/-! ### Concrete sample rows and documents (used by witnesses and
counterexamples) -/

/-- A matchup row: roster 1, matchup 1, 100 points. -/
def rowA : PyVal :=
  pyD [(.str "roster_id", .int 1), (.str "matchup_id", .int 1), (.str "points", .int 100)]

/-- A matchup row: roster 2, matchup 1, 95 points. -/
def rowB : PyVal :=
  pyD [(.str "roster_id", .int 2), (.str "matchup_id", .int 1), (.str "points", .int 95)]

/-- A third matchup row in matchup 1 (malformed input for C7). -/
def rowC : PyVal :=
  pyD [(.str "roster_id", .int 3), (.str "matchup_id", .int 1)]

/-- A row alone in its matchup (singleton case). -/
def rowSolo : PyVal :=
  pyD [(.str "roster_id", .int 4), (.str "matchup_id", .int 9)]

/-- A row whose score is a string rather than a number. -/
def rowStrPoints : PyVal :=
  pyD [(.str "roster_id", .int 1), (.str "matchup_id", .int 1), (.str "points", .str "99.9")]

/-- A row with only a roster id. -/
def rowBare2 : PyVal := pyD [(.str "roster_id", .int 2)]

/-- A user with a display name but no team name. -/
def userSam : PyVal :=
  pyD [(.str "user_id", .str "u1"), (.str "display_name", .str "Sam")]

/-- A roster carrying its own settings/metadata team names, owned by `userSam`. -/
def rosterWolves : PyVal :=
  pyD [(.str "roster_id", .int 1), (.str "owner_id", .str "u1"),
       (.str "settings", pyD [(.str "team_name", .str "Wolves")]),
       (.str "metadata", pyD [(.str "team_name", .str "Wolfpack")])]

/-- A user with no team name, display name or username. -/
def userBare : PyVal := pyD [(.str "user_id", .str "u1")]

/-- A roster with only a roster id and owner id. -/
def rosterPlain : PyVal :=
  pyD [(.str "roster_id", .int 1), (.str "owner_id", .str "u1")]

/-- A parsable document with no `fetched_at` key. -/
def docNoFetchedAt : PyVal :=
  pyD [(.str "league", pyD [(.str "name", .str "L")]),
       (.str "state", pyD [(.str "week", .int 3)]),
       (.str "users", pyL []), (.str "rosters", pyL []),
       (.str "matchups", pyD [])]

/-- A complete well-formed document on which `build_sms` succeeds. -/
def docFull : PyVal := pyD [
  (.str "league", pyD [(.str "name", .str "Big League")]),
  (.str "state", pyD [(.str "week", .int 5)]),
  (.str "fetched_at", .int 1700000000),
  (.str "users", pyL [
     pyD [(.str "user_id", .str "u1"), (.str "display_name", .str "Sam")],
     pyD [(.str "user_id", .str "u2"),
          (.str "metadata", pyD [(.str "team_name", .str "Wolves")])]]),
  (.str "rosters", pyL [
     pyD [(.str "roster_id", .int 1), (.str "owner_id", .str "u1"),
          (.str "players", pyL [.str "p1", .str "p2"])],
     pyD [(.str "roster_id", .int 2), (.str "owner_id", .str "u2"),
          (.str "players", pyL [.str "p3"])]]),
  (.str "matchups", pyD [
     (.str "current", pyL [
        pyD [(.str "roster_id", .int 1), (.str "matchup_id", .int 1),
             (.str "points", .int 100)],
        pyD [(.str "roster_id", .int 2), (.str "matchup_id", .int 1),
             (.str "points", .int 95)]]),
     (.str "next", pyL [])]),
  (.str "trending", pyD [
     (.str "add", pyL [
        pyD [(.str "player_id", .str "p9"), (.str "name", .str "New Guy"),
             (.str "position", .str "RB")],
        pyD [(.str "player_id", .str "p1"), (.str "name", .str "Owned Guy")]]),
     (.str "drop", pyL [
        pyD [(.str "player_id", .str "p7"), (.str "name", .str "Drop Guy")]])])]

/-- The report text `build_sms` produces on `docFull`. -/
def smsFullOut : String :=
  "Big League â€” Week 5 Preview ðŸ”®\n(auto-pulled ts:1700000000)\n\nKey Matchups:\nâ€¢ Sam vs Wolves â€” 100.0-95.0\n\nWaiver Adds:\nâ€¢ New Guy RB\n\nTrade For (buy):\nâ€¢ Owned Guy\nTrade Away (sell):\nâ€¢ Drop Guy\n\nGood luck. Set lineups, win friends, fleece responsibly ðŸ§€.\n"

/-! ### Basic lemmas -/

@[simp] theorem ok_bind {α β : Type} (a : α) (k : α → Except Unit β) :
    (Except.ok a >>= k) = k a := rfl

@[simp] theorem error_bind {α β : Type} (e : Unit) (k : α → Except Unit β) :
    ((Except.error e : Except Unit α) >>= k) = .error e := rfl

@[simp] theorem pure_eq_ok {α : Type} (a : α) :
    (pure a : Except Unit α) = .ok a := rfl

theorem toList_ofList (l : List PyVal) : (PyList.ofList l).toList = l := by
  induction l with
  | nil => rfl
  | cons x xs ih => simp [PyList.ofList, PyList.toList, ih]

theorem as_list_pyL (l : List PyVal) : as_list (pyL l) = l := by
  cases l with
  | nil => rfl
  | cons x xs => simp [as_list, pyL, PyList.ofList, PyList.toList, toList_ofList]

theorem user_prefix_ne_empty (s : String) : ("user_" ++ s) ≠ "" := by
  intro h
  have hlen := congrArg String.length h
  rw [String.length_append] at hlen
  have h5 : ("user_").length = 5 := rfl
  have h0 : ("" : String).length = 0 := rfl
  omega

theorem truthy_user_prefix (s : String) :
    truthy (.str ("user_" ++ s)) = true := by
  simp [truthy, user_prefix_ne_empty s]

theorem exBind_ok {α β : Type} {e : Except Unit α} {k : α → Except Unit β} {y : β} :
    (e >>= k) = .ok y ↔ ∃ v, e = .ok v ∧ k v = .ok y := by
  cases e with
  | ok v => simp [Bind.bind, Except.bind]
  | error err => simp [Bind.bind, Except.bind]

theorem hasKey_iff_mem_keys (bs : List (String × List PyVal)) (k : String) :
    (bs.any (fun e => e.1 = k)) = true ↔ k ∈ bs.map Prod.fst := by
  simp only [List.any_eq_true, decide_eq_true_eq, List.mem_map]

theorem keys_addRow (bs : List (String × List PyVal)) (k : String) (m : PyVal) :
    (addRow bs k m).map Prod.fst =
      if k ∈ bs.map Prod.fst then bs.map Prod.fst else bs.map Prod.fst ++ [k] := by
  unfold addRow
  by_cases h : bs.any (fun e => e.1 = k)
  · rw [if_pos h, if_pos ((hasKey_iff_mem_keys bs k).mp h), List.map_map]
    refine List.map_congr_left (fun e _ => ?_)
    by_cases hk : e.1 = k <;> simp [hk]
  · rw [if_neg h, if_neg (fun hc => h ((hasKey_iff_mem_keys bs k).mpr hc))]
    rw [List.map_append]
    rfl

theorem bucketOf_append (bs cs : List (String × List PyVal)) (k : String) :
    bucketOf (bs ++ cs) k =
      if bs.any (fun e => e.1 = k) then bucketOf bs k else bucketOf cs k := by
  induction bs with
  | nil => simp [bucketOf]
  | cons e rest ih =>
    by_cases he : e.1 = k
    · simp [bucketOf, he]
    · have h1 : bucketOf (e :: (rest ++ cs)) k = bucketOf (rest ++ cs) k := by
        simp [bucketOf, he]
      have h2 : bucketOf (e :: rest) k = bucketOf rest k := by
        simp [bucketOf, he]
      rw [List.cons_append, h1, ih, List.any_cons, decide_eq_false he, Bool.false_or, h2]

theorem bucketOf_of_not_hasKey (bs : List (String × List PyVal)) (k : String)
    (h : bs.any (fun e => e.1 = k) = false) : bucketOf bs k = [] := by
  induction bs with
  | nil => rfl
  | cons e rest ih =>
    simp only [List.any_cons, Bool.or_eq_false_iff, decide_eq_false_iff_not] at h
    simp [bucketOf, h.1, ih (by simp [h.2])]

theorem bucketOf_map_update_ne (bs : List (String × List PyVal)) (k : String)
    (m : PyVal) (k' : String) (hk : k' ≠ k) :
    bucketOf (bs.map (fun e => if e.1 = k then (e.1, e.2 ++ [m]) else e)) k' =
      bucketOf bs k' := by
  induction bs with
  | nil => rfl
  | cons e rest ih =>
    simp only [List.map]
    by_cases he : e.1 = k
    · have h1 : e.1 ≠ k' := fun hc => hk (hc.symm.trans he)
      rw [if_pos he]
      simp only [bucketOf]
      rw [if_neg h1, if_neg h1, ih]
    · rw [if_neg he]
      by_cases he' : e.1 = k'
      · simp only [bucketOf]
        rw [if_pos he', if_pos he']
      · simp only [bucketOf]
        rw [if_neg he', if_neg he', ih]

theorem bucketOf_map_update_eq (bs : List (String × List PyVal)) (k : String)
    (m : PyVal) (h : bs.any (fun e => e.1 = k) = true) :
    bucketOf (bs.map (fun e => if e.1 = k then (e.1, e.2 ++ [m]) else e)) k =
      bucketOf bs k ++ [m] := by
  induction bs with
  | nil => simp at h
  | cons e rest ih =>
    simp only [List.map]
    by_cases he : e.1 = k
    · rw [if_pos he]
      simp only [bucketOf]
      rw [if_pos he, if_pos he]
    · have hr : rest.any (fun e => e.1 = k) = true := by
        simp only [List.any_cons, Bool.or_eq_true, decide_eq_true_eq] at h
        rcases h with h | h
        · exact absurd h he
        · simp [h]
      rw [if_neg he]
      simp only [bucketOf]
      rw [if_neg he, if_neg he, ih hr]

theorem bucketOf_addRow (bs : List (String × List PyVal)) (k : String) (m : PyVal)
    (k' : String) :
    bucketOf (addRow bs k m) k' =
      if k' = k then bucketOf bs k' ++ [m] else bucketOf bs k' := by
  unfold addRow
  by_cases h : bs.any (fun e => e.1 = k)
  · rw [if_pos h]
    by_cases hk : k' = k
    · subst hk
      rw [if_pos rfl, bucketOf_map_update_eq bs k' m h]
    · rw [if_neg hk, bucketOf_map_update_ne bs k m k' hk]
  · rw [if_neg h, bucketOf_append]
    by_cases hk : k' = k
    · subst hk
      rw [if_neg (by simp [h]), bucketOf_of_not_hasKey bs k' (by simp [h])]
      simp [bucketOf]
    · by_cases hmem : bs.any (fun e => e.1 = k') = true
      · rw [if_pos hmem, if_neg hk]
      · rw [if_neg (by simp [hmem] : ¬ (bs.any (fun e => e.1 = k')) = true), if_neg hk]
        rw [bucketOf_of_not_hasKey bs k' (by simp [hmem])]
        simp only [bucketOf]
        rw [if_neg (fun hc : k = k' => hk hc.symm)]


theorem foldl_group_keys (rows : List PyVal) :
    ∀ acc : List (String × List PyVal),
      ((rows.foldl (fun acc m => addRow acc (rowKey m) m) acc).map Prod.fst) =
        firstSeenAux (acc.map Prod.fst) (rows.map rowKey) := by
  induction rows with
  | nil => intro acc; rfl
  | cons m rest ih =>
    intro acc
    simp only [List.foldl_cons, List.map, firstSeenAux]
    rw [ih (addRow acc (rowKey m) m), keys_addRow]

theorem keys_groupRowsCore (rows : List PyVal) :
    (groupRowsCore rows).map Prod.fst = firstSeen (rows.map rowKey) :=
  foldl_group_keys rows []

theorem foldl_group_bucket (rows : List PyVal) :
    ∀ (acc : List (String × List PyVal)) (k : String),
      bucketOf (rows.foldl (fun acc m => addRow acc (rowKey m) m) acc) k =
        bucketOf acc k ++ rows.filter (fun m => rowKey m = k) := by
  induction rows with
  | nil => intro acc k; simp
  | cons m rest ih =>
    intro acc k
    simp only [List.foldl_cons, List.filter_cons]
    rw [ih, bucketOf_addRow]
    by_cases h : rowKey m = k
    · rw [if_pos h.symm, if_pos (by simp [h])]
      simp
    · rw [if_neg (fun hc : k = rowKey m => h hc.symm), if_neg (by simp [h])]

theorem bucket_groupRowsCore (rows : List PyVal) (k : String) :
    bucketOf (groupRowsCore rows) k = rows.filter (fun m => rowKey m = k) := by
  have h := foldl_group_bucket rows [] k
  simpa [bucketOf] using h

theorem firstSeenAux_nodup (ks : List String) :
    ∀ acc : List String, acc.Nodup → (firstSeenAux acc ks).Nodup := by
  induction ks with
  | nil => intro acc h; exact h
  | cons k rest ih =>
    intro acc h
    simp only [firstSeenAux]
    by_cases hk : k ∈ acc
    · rw [if_pos hk]; exact ih acc h
    · rw [if_neg hk]
      exact ih _ (by simp [List.nodup_append, h, hk])

theorem firstSeen_nodup (ks : List String) : (firstSeen ks).Nodup :=
  firstSeenAux_nodup ks [] List.nodup_nil

theorem mem_firstSeenAux (ks : List String) :
    ∀ (acc : List String) (k : String),
      k ∈ firstSeenAux acc ks ↔ k ∈ acc ∨ k ∈ ks := by
  induction ks with
  | nil => intro acc k; simp [firstSeenAux]
  | cons k' rest ih =>
    intro acc k
    simp only [firstSeenAux]
    by_cases h : k' ∈ acc
    · rw [if_pos h, ih]
      constructor
      · rintro (h1 | h1)
        · exact Or.inl h1
        · exact Or.inr (List.mem_cons_of_mem _ h1)
      · rintro (h1 | h1)
        · exact Or.inl h1
        · rcases List.mem_cons.mp h1 with rfl | h2
          · exact Or.inl h
          · exact Or.inr h2
    · rw [if_neg h, ih]
      simp only [List.mem_append, List.mem_cons, List.mem_singleton]
      tauto

theorem mem_firstSeen (ks : List String) (k : String) :
    k ∈ firstSeen ks ↔ k ∈ ks := by
  rw [firstSeen, mem_firstSeenAux]
  simp

theorem assoc_reconstruct (bs : List (String × List PyVal))
    (h : (bs.map Prod.fst).Nodup) :
    (bs.map Prod.fst).map (fun k => (k, bucketOf bs k)) = bs := by
  induction bs with
  | nil => rfl
  | cons e rest ih =>
    simp only [List.map] at h ⊢
    have h1 : e.1 ∉ rest.map Prod.fst := (List.nodup_cons.mp h).1
    have h2 := (List.nodup_cons.mp h).2
    have hhead : bucketOf (e :: rest) e.1 = e.2 := by
      simp [bucketOf]
    have hcong : ∀ k ∈ rest.map Prod.fst,
        (k, bucketOf (e :: rest) k) = (k, bucketOf rest k) := by
      intro k hk
      have hne : e.1 ≠ k := fun hc => h1 (hc ▸ hk)
      simp [bucketOf, hne]
    rw [hhead, List.map_congr_left hcong, ih h2]

theorem bucketsToPairs_aux (bs : List (String × List PyVal)) :
    ∀ acc : List (PyVal × PyVal),
      bs.foldl (fun pairs e =>
        match e.2 with
        | a :: b :: _ => pairs ++ [(a, b)]
        | [a] => pairs ++ [(a, .dict .nil)]
        | [] => pairs) acc = acc ++ bs.filterMap (fun e => toPair e.2) := by
  induction bs with
  | nil => intro acc; simp
  | cons e rest ih =>
    intro acc
    rcases e with ⟨k, bucket⟩
    match bucket with
    | [] => simp [List.foldl_cons, List.filterMap_cons, toPair, ih]
    | [a] => simp [List.foldl_cons, List.filterMap_cons, toPair, ih]
    | a :: b :: t => simp [List.foldl_cons, List.filterMap_cons, toPair, ih]

theorem bucketsToPairs_eq (bs : List (String × List PyVal)) :
    bucketsToPairs bs = bs.filterMap (fun e => toPair e.2) := by
  have h := bucketsToPairs_aux bs []
  simpa [bucketsToPairs] using h

theorem groupRows_eq_core_aux (rows : List PyVal) :
    ∀ acc : List (String × List PyVal), (∀ m ∈ rows, isDict m = true) →
      (rows.foldlM (fun acc m => do
        let k ← rowKeyE m
        pure (addRow acc k m)) acc : Except Unit _) =
        .ok (rows.foldl (fun acc m => addRow acc (rowKey m) m) acc) := by
  induction rows with
  | nil => intro acc _; rfl
  | cons m rest ih =>
    intro acc h
    have hm : isDict m = true := h m (List.mem_cons_self m rest)
    have hkey : rowKeyE m = .ok (rowKey m) := by
      cases m <;> simp_all [rowKeyE, rowKey, dGet, isDict]
    simp only [List.foldlM_cons, List.foldl_cons]
    rw [hkey]
    show (rest.foldlM _ (addRow acc (rowKey m) m) : Except Unit _) = _
    exact ih _ (fun m' hm' => h m' (List.mem_cons_of_mem _ hm'))

theorem groupRows_ok (rows : List PyVal) (h : ∀ m ∈ rows, isDict m = true) :
    groupRows rows = .ok (groupRowsCore rows) :=
  groupRows_eq_core_aux rows [] h

/-- Characterization of the grouper on dict rows: the emitted pairs are, in
first-seen key order, the bucket pair of each key, where the bucket for a
key is the subsequence of input rows carrying that key. -/
theorem pair_by_matchup_id_char (rows : List PyVal)
    (h : ∀ m ∈ rows, isDict m = true) :
    pair_by_matchup_id rows =
      .ok ((firstSeen (rows.map rowKey)).filterMap
        (fun k => toPair (rows.filter (fun m => rowKey m = k)))) := by
  unfold pair_by_matchup_id
  rw [groupRows_ok rows h]
  show Except.ok (bucketsToPairs (groupRowsCore rows)) = _
  rw [bucketsToPairs_eq]
  have hnd : ((groupRowsCore rows).map Prod.fst).Nodup := by
    rw [keys_groupRowsCore]; exact firstSeen_nodup _
  have hrec := assoc_reconstruct (groupRowsCore rows) hnd
  conv_lhs => rw [← hrec]
  rw [keys_groupRowsCore, List.filterMap_map]
  have hfun : ((fun e : String × List PyVal => toPair e.2) ∘
      (fun k => (k, bucketOf (groupRowsCore rows) k))) =
      (fun k => toPair (rows.filter (fun m => rowKey m = k))) := by
    funext k
    simp [Function.comp, bucket_groupRowsCore]
  rw [hfun]

theorem countP_filterMap {α β : Type} (f : α → Option β) (q : β → Bool)
    (l : List α) :
    (l.filterMap f).countP q = l.countP (fun a => ((f a).map q).getD false) := by
  induction l with
  | nil => rfl
  | cons a rest ih =>
    cases hf : f a <;>
      simp [List.filterMap_cons, hf, List.countP_cons, ih]

theorem countP_eq_one_of_nodup {l : List String} {k : String}
    (hnd : l.Nodup) (hmem : k ∈ l) :
    l.countP (fun x => x = k) = 1 := by
  induction l with
  | nil => simp at hmem
  | cons a rest ih =>
    rcases List.mem_cons.mp hmem with rfl | h2
    · have hnr : k ∉ rest := (List.nodup_cons.mp hnd).1
      rw [List.countP_cons]
      have : rest.countP (fun x => decide (x = k)) = 0 :=
        List.countP_eq_zero.mpr (fun x hx => by
          simp only [decide_eq_true_eq]
          exact fun hc => hnr (hc ▸ hx))
      simp [this]
    · have hne : a ≠ k := fun hc => (List.nodup_cons.mp hnd).1 (hc ▸ h2)
      rw [List.countP_cons]
      rw [ih (List.nodup_cons.mp hnd).2 h2]
      simp [hne]

theorem map_key_filterMap (F : String → Option (PyVal × PyVal)) (l : List String)
    (h : ∀ k ∈ l, ∃ p, F k = some p ∧ rowKey p.1 = k) :
    ((l.filterMap F).map (fun p => rowKey p.1)) = l := by
  induction l with
  | nil => rfl
  | cons k rest ih =>
    obtain ⟨p, hF, hkey⟩ := h k (List.mem_cons_self k rest)
    simp [List.filterMap_cons, hF, hkey,
      ih (fun k' h' => h k' (List.mem_cons_of_mem _ h'))]

theorem toPair_fst_key (rows : List PyVal) (k' : String) (p : PyVal × PyVal)
    (hp : toPair (rows.filter (fun m => rowKey m = k')) = some p) :
    rowKey p.1 = k' ∧ p.1 ∈ rows := by
  cases hfil : rows.filter (fun m => rowKey m = k') with
  | nil =>
    rw [hfil] at hp
    exact absurd hp (by simp [toPair])
  | cons x t =>
    have hx : x ∈ rows.filter (fun m => rowKey m = k') := by
      rw [hfil]; exact List.mem_cons_self _ _
    have hx' := List.mem_filter.mp hx
    have hkey : rowKey x = k' := by simpa using hx'.2
    rw [hfil] at hp
    cases t with
    | nil =>
      simp only [toPair, Option.some.injEq] at hp
      rw [← hp]
      exact ⟨hkey, hx'.1⟩
    | cons y t2 =>
      simp only [toPair, Option.some.injEq] at hp
      rw [← hp]
      exact ⟨hkey, hx'.1⟩

theorem toPair_of_mem_key (rows : List PyVal) (k' : String)
    (h : k' ∈ rows.map rowKey) :
    ∃ p, toPair (rows.filter (fun m => rowKey m = k')) = some p := by
  obtain ⟨m, hm, hkey⟩ := List.mem_map.mp h
  have hmem : m ∈ rows.filter (fun m => rowKey m = k') :=
    List.mem_filter.mpr ⟨hm, by simp [hkey]⟩
  cases hfil : rows.filter (fun m => rowKey m = k') with
  | nil =>
    rw [hfil] at hmem
    exact absurd hmem (List.not_mem_nil m)
  | cons x t =>
    cases t with
    | nil => exact ⟨(x, .dict .nil), rfl⟩
    | cons y t2 => exact ⟨(x, y), rfl⟩

theorem pairs_map_key (rows : List PyVal) :
    ((firstSeen (rows.map rowKey)).filterMap
      (fun k' => toPair (rows.filter (fun m => rowKey m = k')))).map
      (fun p => rowKey p.1) = firstSeen (rows.map rowKey) := by
  apply map_key_filterMap
  intro k' hk'
  obtain ⟨p, hp⟩ := toPair_of_mem_key rows k' ((mem_firstSeen _ _).mp hk')
  exact ⟨p, hp, (toPair_fst_key rows k' p hp).1⟩

theorem countP_congr_mem {α : Type} {l : List α} {p q : α → Bool}
    (h : ∀ a ∈ l, p a = q a) : l.countP p = l.countP q := by
  induction l with
  | nil => rfl
  | cons a rest ih =>
    rw [List.countP_cons, List.countP_cons, h a (List.mem_cons_self a rest),
        ih (fun a' ha' => h a' (List.mem_cons_of_mem _ ha'))]

theorem pairs_countP_one (rows : List PyVal) (k : String) (x y : PyVal)
    (htp : toPair (rows.filter (fun m => rowKey m = k)) = some (x, y))
    (q : PyVal × PyVal → Bool)
    (hq1 : q (x, y) = true)
    (hq2 : ∀ p, q p = true → p.1 = x) :
    ((firstSeen (rows.map rowKey)).filterMap
      (fun k' => toPair (rows.filter (fun m => rowKey m = k')))).countP q = 1 := by
  have hxk := toPair_fst_key rows k (x, y) htp
  have hkmem : k ∈ firstSeen (rows.map rowKey) :=
    (mem_firstSeen _ _).mpr (List.mem_map.mpr ⟨x, hxk.2, hxk.1⟩)
  rw [countP_filterMap]
  have hcongr : ∀ k' ∈ firstSeen (rows.map rowKey),
      (((toPair (rows.filter (fun m => rowKey m = k'))).map q).getD false) =
        decide (k' = k) := by
    intro k' _
    by_cases hkk : k' = k
    · subst hkk
      rw [htp]
      simp [hq1]
    · cases hf : toPair (rows.filter (fun m => rowKey m = k')) with
      | none => simp [hkk]
      | some p =>
        have hkey := (toPair_fst_key rows k' p hf).1
        have hqp : q p = false := by
          cases hcase : q p
          · rfl
          · have h1 : p.1 = x := hq2 p hcase
            have : k' = k := by rw [← hkey, h1, hxk.1]
            exact absurd this hkk
        simp [hqp, hkk]
  rw [countP_congr_mem hcongr]
  exact countP_eq_one_of_nodup (firstSeen_nodup _) hkmem

theorem matchupLine_TBD (d : PyDict) (ru : List (PyVal × PyVal)) (s : String)
    (h : matchupLine (.dict d) (.dict .nil) ru = .ok s) :
    ∃ t, s = pyStr (nice_team ((pyDictFind d (.str "roster_id")).getD .none) ru)
      ++ " vs " ++ "TBD" ++ t := by
  have hb : truthy (PyVal.dict .nil) = false := rfl
  have hn : truthy PyVal.none = false := rfl
  have h0 : truthy (PyVal.int 0) = false := rfl
  have hfmt0 : pyFmtF1 (PyVal.int 0) = .ok "0.0" := rfl
  have hTBD : pyStr (PyVal.str "TBD") = "TBD" := rfl
  simp only [matchupLine, dGet, ok_bind, hb, hn, h0, Bool.false_eq_true, if_false,
    pyOrE, pure_eq_ok, pyDictFind, Option.getD_none, Bool.or_false, hTBD] at h
  by_cases hP : truthy ((pyDictFind d (PyVal.str "points")).getD PyVal.none) = true
  · simp only [hP, if_true, ok_bind] at h
    cases hfmt : pyFmtF1 ((pyDictFind d (PyVal.str "points")).getD PyVal.none) with
    | error e => rw [hfmt] at h; simp at h
    | ok aps =>
      rw [hfmt] at h
      simp only [ok_bind, hfmt0, pure_eq_ok, Except.ok.injEq] at h
      refine ⟨" â€” " ++ aps ++ "-" ++ "0.0", ?_⟩
      rw [← h]
      simp only [String.append_assoc]
  · have hP' : truthy ((pyDictFind d (PyVal.str "points")).getD PyVal.none) = false := by
      revert hP
      cases truthy ((pyDictFind d (PyVal.str "points")).getD PyVal.none) <;> simp
    simp only [hP', Bool.false_eq_true, if_false, ok_bind] at h
    by_cases hS : truthy ((pyDictFind d (PyVal.str "starters_points")).getD PyVal.none) = true
    · simp only [hS, if_true, ok_bind] at h
      cases hfmt : pyFmtF1 ((pyDictFind d (PyVal.str "starters_points")).getD PyVal.none) with
      | error e => rw [hfmt] at h; simp at h
      | ok aps =>
        rw [hfmt] at h
        simp only [ok_bind, hfmt0, pure_eq_ok, Except.ok.injEq] at h
        refine ⟨" â€” " ++ aps ++ "-" ++ "0.0", ?_⟩
        rw [← h]
        simp only [String.append_assoc]
    · have hS' : truthy ((pyDictFind d (PyVal.str "starters_points")).getD PyVal.none) = false := by
        revert hS
        cases truthy ((pyDictFind d (PyVal.str "starters_points")).getD PyVal.none) <;> simp
      simp only [hS', Bool.false_eq_true, if_false, ok_bind, h0,
        pure_eq_ok, Except.ok.injEq] at h
      refine ⟨"", ?_⟩
      rw [← h]
      simp only [String.append_assoc, show ("TBD" : String) ++ "" = "TBD" from rfl]

/-- Claim C3: when exactly two rows share a matchup identifier (their common
string key `k`), the grouper yields exactly one pair containing both rows, in
their input order, and the pairs are emitted in first-seen order of their
matchup identifiers. -/
theorem pair_two_rows_unique_pair (rows : List PyVal) (a b : PyVal) (k : String)
    (hdict : ∀ m ∈ rows, isDict m = true)
    (hfil : rows.filter (fun m => rowKey m = k) = [a, b]) :
    ∃ ps, pair_by_matchup_id rows = .ok ps ∧
      ps.countP (fun p => p.1 = a ∧ p.2 = b) = 1 ∧
      ps.map (fun p => rowKey p.1) = firstSeen (rows.map rowKey) := by
  refine ⟨_, pair_by_matchup_id_char rows hdict, ?_, ?_⟩
  · apply pairs_countP_one rows k a b
    · rw [hfil]; rfl
    · simp
    · intro p hp
      simp only [decide_eq_true_eq] at hp
      exact hp.1
  · exact pairs_map_key rows

/-- Witness for C3 at the concrete two-row input sharing matchup id 1. -/
theorem pair_two_rows_unique_pair_witness :
    ∃ ps, pair_by_matchup_id [rowA, rowB] = .ok ps ∧
      ps.countP (fun p => p.1 = rowA ∧ p.2 = rowB) = 1 ∧
      ps.map (fun p => rowKey p.1) = firstSeen ([rowA, rowB].map rowKey) :=
  pair_two_rows_unique_pair [rowA, rowB] rowA rowB "1" (by decide) (by decide)

/-- Claim C6: a row alone under its matchup identifier is paired with the
placeholder `{}`, exactly once, and the formatted line for that pair names
the placeholder side "TBD". -/
theorem pair_singleton_tbd (rows : List PyVal) (a : PyVal) (k : String)
    (hdict : ∀ m ∈ rows, isDict m = true)
    (hfil : rows.filter (fun m => rowKey m = k) = [a]) :
    ∃ ps, pair_by_matchup_id rows = .ok ps ∧
      ps.countP (fun p => p.1 = a ∧ p.2 = PyVal.dict .nil) = 1 ∧
      ∀ (ru : List (PyVal × PyVal)) (s : String),
        matchupLine a (PyVal.dict .nil) ru = .ok s →
        ∃ rid t, dGet a (.str "roster_id") = .ok rid ∧
          s = pyStr (nice_team rid ru) ++ " vs " ++ "TBD" ++ t := by
  have ha : a ∈ rows ∧ rowKey a = k := by
    have hmem : a ∈ rows.filter (fun m => rowKey m = k) := by
      rw [hfil]; exact List.mem_cons_self _ _
    have h2 := List.mem_filter.mp hmem
    exact ⟨h2.1, by simpa using h2.2⟩
  refine ⟨_, pair_by_matchup_id_char rows hdict, ?_, ?_⟩
  · apply pairs_countP_one rows k a (PyVal.dict .nil)
    · rw [hfil]; rfl
    · simp
    · intro p hp
      simp only [decide_eq_true_eq] at hp
      exact hp.1
  · intro ru s hline
    have hd := hdict a ha.1
    cases a with
    | dict d =>
      obtain ⟨t, ht⟩ := matchupLine_TBD d ru s hline
      exact ⟨(pyDictFind d (.str "roster_id")).getD .none, t, rfl, ht⟩
    | none => simp [isDict] at hd
    | bool b => simp [isDict] at hd
    | int n => simp [isDict] at hd
    | str s2 => simp [isDict] at hd
    | list l => simp [isDict] at hd

/-- Witness for C6 at the concrete one-row input with matchup id 9. -/
theorem pair_singleton_tbd_witness :
    ∃ ps, pair_by_matchup_id [rowSolo] = .ok ps ∧
      ps.countP (fun p => p.1 = rowSolo ∧ p.2 = PyVal.dict .nil) = 1 ∧
      ∀ (ru : List (PyVal × PyVal)) (s : String),
        matchupLine rowSolo (PyVal.dict .nil) ru = .ok s →
        ∃ rid t, dGet rowSolo (.str "roster_id") = .ok rid ∧
          s = pyStr (nice_team rid ru) ++ " vs " ++ "TBD" ++ t :=
  pair_singleton_tbd [rowSolo] rowSolo "9" (by decide) (by decide)

/-- Claim C7 (amended): a bucket of three or more rows takes the first two in
input order as the pair, silently ignores the rest, and raises no error; no
diagnostic message is logged anywhere in the grouping function. -/
theorem pair_overfull_takes_first_two (rows : List PyVal) (a b c : PyVal)
    (rest : List PyVal) (k : String)
    (hdict : ∀ m ∈ rows, isDict m = true)
    (hfil : rows.filter (fun m => rowKey m = k) = a :: b :: c :: rest) :
    ∃ ps, pair_by_matchup_id rows = .ok ps ∧
      ps.countP (fun p => p.1 = a ∧ p.2 = b) = 1 ∧
      (∀ p ∈ ps, rowKey p.1 = k → p = (a, b)) ∧
      pair_by_matchup_id_messages rows = [] := by
  refine ⟨_, pair_by_matchup_id_char rows hdict, ?_, ?_, rfl⟩
  · apply pairs_countP_one rows k a b
    · rw [hfil]; rfl
    · simp
    · intro p hp
      simp only [decide_eq_true_eq] at hp
      exact hp.1
  · intro p hmem hkey
    obtain ⟨k', hk', hp⟩ := List.mem_filterMap.mp hmem
    have hfst := (toPair_fst_key rows k' p hp).1
    have hkk : k' = k := by rw [← hfst, hkey]
    subst hkk
    rw [hfil] at hp
    simp only [toPair, Option.some.injEq] at hp
    exact hp.symm

/-- Witness for the amended C7 at the concrete three-row input. -/
theorem pair_overfull_witness :
    ∃ ps, pair_by_matchup_id [rowA, rowB, rowC] = .ok ps ∧
      ps.countP (fun p => p.1 = rowA ∧ p.2 = rowB) = 1 ∧
      (∀ p ∈ ps, rowKey p.1 = "1" → p = (rowA, rowB)) ∧
      pair_by_matchup_id_messages [rowA, rowB, rowC] = [] :=
  pair_overfull_takes_first_two [rowA, rowB, rowC] rowA rowB rowC [] "1"
    (by decide) (by decide)

/-- Counterexample to C7 as stated: on three rows sharing matchup id 1 the
grouper takes the first two and ignores the third, but emits no log message
at all (the claim asserts the discrepancy is logged). -/
theorem pair_overfull_counterexample :
    pair_by_matchup_id [rowA, rowB, rowC] = .ok [(rowA, rowB)] ∧
    pair_by_matchup_id_messages [rowA, rowB, rowC] = [] :=
  ⟨rfl, rfl⟩

/-- Counterexample to C1 as stated: roster 1 carries both a settings team
name and a metadata team name ("Wolves"/"Wolfpack"), yet the code resolves
the owner's display name "Sam" — roster-level names are never consulted. -/
theorem name_ignores_roster_level_counterexample :
    roster_owner_maps (pyL [userSam]) (pyL [rosterWolves]) =
      .ok [(.int 1, .str "Sam")] ∧ PyVal.str "Sam" ≠ .str "Wolves" :=
  ⟨rfl, by decide⟩

/-- The `nm` chain of the users loop on a fully populated user record:
owner metadata team name, then display name, then username, then the
synthesized `user_<id>`. -/
theorem userNameOf_shape (tn dn un uid : PyVal) :
    userNameOf (pyD [(.str "user_id", uid),
      (.str "metadata", pyD [(.str "team_name", tn)]),
      (.str "display_name", dn), (.str "username", un)]) =
    .ok (if truthy tn = true then tn else if truthy dn = true then dn
         else if truthy un = true then un
         else .str ("user_" ++ pyStr uid)) := by
  have hmd : truthy (PyVal.dict (PyDict.cons (.str "team_name") tn .nil)) = true := rfl
  cases htn : truthy tn with
  | true =>
    simp [userNameOf, pyD, PyDict.ofList, dGetD, dGet, pyDictFind, pyOrE, pyOrV,
      hmd, htn]
  | false =>
    cases hdn : truthy dn with
    | true =>
      simp [userNameOf, pyD, PyDict.ofList, dGetD, dGet, pyDictFind, pyOrE, pyOrV,
        hmd, htn, hdn]
    | false =>
      cases hun : truthy un with
      | true =>
        simp [userNameOf, pyD, PyDict.ofList, dGetD, dGet, pyDictFind, pyOrE, pyOrV,
          hmd, htn, hdn, hun]
      | false =>
        simp [userNameOf, pyD, PyDict.ofList, dGetD, dGet, pyDictFind, pyOrE, pyOrV,
          hmd, htn, hdn, hun]

/-- Claim C1 (amended): the resolver consults only owner-level fields, in
order: the owning user's metadata team name, the user's display name, the
user's username, then the synthesized `user_<user id>`; roster-level
settings/metadata team names play no part. -/
theorem roster_name_resolution_chain (tn dn un uid rid : PyVal) :
    roster_owner_maps
      (pyL [pyD [(.str "user_id", uid),
                 (.str "metadata", pyD [(.str "team_name", tn)]),
                 (.str "display_name", dn), (.str "username", un)]])
      (pyL [pyD [(.str "roster_id", rid), (.str "owner_id", uid)]]) =
      .ok [(rid, if truthy tn = true then tn
                 else if truthy dn = true then dn
                 else if truthy un = true then un
                 else .str ("user_" ++ pyStr uid))] := by
  have hu := userNameOf_shape tn dn un uid
  simp only [pyD, PyDict.ofList] at hu
  cases htn : truthy tn with
  | true =>
    simp only [htn, if_true] at hu
    simp [roster_owner_maps, as_list_pyL, hu, pyD, PyDict.ofList, dGet,
      pyDictFind, dictSet, assocFind, pyOrV, htn]
  | false =>
    simp only [htn, Bool.false_eq_true, if_false] at hu
    cases hdn : truthy dn with
    | true =>
      simp only [hdn, if_true] at hu
      simp [roster_owner_maps, as_list_pyL, hu, pyD, PyDict.ofList, dGet,
        pyDictFind, dictSet, assocFind, pyOrV, hdn]
    | false =>
      simp only [hdn, Bool.false_eq_true, if_false] at hu
      cases hun : truthy un with
      | true =>
        simp only [hun, if_true] at hu
        simp [roster_owner_maps, as_list_pyL, hu, pyD, PyDict.ofList, dGet,
          pyDictFind, dictSet, assocFind, pyOrV, hun]
      | false =>
        simp only [hun, Bool.false_eq_true, if_false] at hu
        simp [roster_owner_maps, as_list_pyL, hu, pyD, PyDict.ofList, dGet,
          pyDictFind, dictSet, assocFind, pyOrV, hun,
          truthy_user_prefix (pyStr uid)]

/-- Counterexample to C2 as stated: the owner exists but has no team name,
display name or username — the code yields "user_u1", not "Team 1". -/
theorem fallback_name_counterexample :
    roster_owner_maps (pyL [userBare]) (pyL [rosterPlain]) =
      .ok [(.int 1, .str "user_u1")] ∧ PyVal.str "user_u1" ≠ .str "Team 1" :=
  ⟨rfl, by decide⟩

/-- Claim C2 (amended): the "Team <id>" fallback appears exactly when the
roster's owner id has no entry in the user-name map (e.g. the users list is
empty); when the owner exists but has no name fields at all, the name is
"user_<owner id>" instead. -/
theorem fallback_team_name (rid uid : PyVal) :
    roster_owner_maps (pyL [])
      (pyL [pyD [(.str "roster_id", rid), (.str "owner_id", uid)]]) =
      .ok [(rid, .str ("Team " ++ pyStr rid))] ∧
    roster_owner_maps (pyL [pyD [(.str "user_id", uid)]])
      (pyL [pyD [(.str "roster_id", rid), (.str "owner_id", uid)]]) =
      .ok [(rid, .str ("user_" ++ pyStr uid))] := by
  have hn : truthy PyVal.none = false := rfl
  have hnil : truthy (PyVal.dict .nil) = false := rfl
  constructor
  · simp [roster_owner_maps, as_list_pyL, pyD, PyDict.ofList, dGet, pyDictFind,
      pyOrV, dictSet, assocFind, hn]
  · simp [roster_owner_maps, as_list_pyL, userNameOf, pyD, PyDict.ofList,
      dGetD, dGet, pyDictFind, pyOrE, pyOrV, dictSet, assocFind, hn, hnil,
      truthy_user_prefix (pyStr uid)]

/-- Claim C4 (code × spec divergence): on a present, parsable document that
merely lacks the `fetched_at` key, `build_sms` raises (the embedded
`datetime.fromtimestamp(None, ...)` is a TypeError) instead of recovering
with a local fallback as the spec requires. -/
theorem build_sms_missing_fetched_at_raises :
    build_sms docNoFetchedAt = .error () := rfl

/-- Claim C5 (code × spec divergence): a matchup row whose points field holds
the string "99.9" makes the formatting path raise (format(str, ".1f") is a
ValueError) rather than safe-parsing the score to zero. -/
theorem string_points_raise :
    build_matchup_lines [(rowStrPoints, rowBare2)] [] = .error () := rfl

/-- Claim C8: the report builder is a pure function of the input document —
two successful runs on identical input yield identical (byte-equal) text. -/
theorem build_sms_deterministic (j : PyVal) (s₁ s₂ : String)
    (h₁ : build_sms j = .ok s₁) (h₂ : build_sms j = .ok s₂) : s₁ = s₂ := by
  rw [h₁] at h₂
  exact Except.ok.inj h₂

/-- Witness for C8: two evaluations of `build_sms` on the full sample
document produce the same text. -/
theorem build_sms_deterministic_witness : smsFullOut = smsFullOut := by
  have h : build_sms docFull = .ok smsFullOut := by
    set_option maxRecDepth 10000 in rfl
  exact build_sms_deterministic docFull smsFullOut smsFullOut h h

/-- Claim C9: rendered section bullets are capped — at most 3 matchup lines,
at most 6 waiver adds, at most 5 trade-for and 5 trade-away entries,
regardless of input size. -/
theorem section_caps :
    (∀ (pairs ru : List (PyVal × PyVal)) (ls : List String),
        build_matchup_lines pairs ru = .ok ls → ls.length ≤ 3) ∧
    (∀ (j : PyVal) (ru : List (PyVal × PyVal)) (w f a : List PyVal),
        trending_blurbs j ru = .ok (w, f, a) →
        w.length ≤ 6 ∧ f.length ≤ 5 ∧ a.length ≤ 5) := by
  constructor
  · intro pairs ru ls h
    unfold build_matchup_lines at h
    rw [exBind_ok] at h
    obtain ⟨v, _, hv⟩ := h
    simp only [pure_eq_ok, Except.ok.injEq] at hv
    rw [← hv, List.length_take]
    exact min_le_left _ _
  · intro j ru w f a h
    unfold trending_blurbs at h
    simp only [exBind_ok, pure_eq_ok, Except.ok.injEq] at h
    obtain ⟨owned, _, tr, _, addsV, _, tr2, _, dropsV, _, wa, _, tf, _, dk, _,
      ta, _, h⟩ := h
    rw [Prod.mk.injEq, Prod.mk.injEq] at h
    obtain ⟨h1, h2, h3⟩ := h
    refine ⟨?_, ?_, ?_⟩
    · rw [← h1]
      by_cases hw : wa.isEmpty
      · simp [hw]
      · simp only [hw, if_false, Bool.false_eq_true]
        rw [List.length_take]
        exact le_trans (min_le_left _ _) (by omega)
    · rw [← h2, List.length_take]
      exact min_le_left _ _
    · rw [← h3, List.length_take]
      exact min_le_left _ _

/-- Witness for C9 at concrete empty inputs. -/
theorem section_caps_witness :
    (([] : List String).length ≤ 3) ∧
    (([] : List PyVal).length ≤ 6 ∧ ([] : List PyVal).length ≤ 5 ∧
      ([] : List PyVal).length ≤ 5) :=
  ⟨section_caps.1 [] [] [] rfl,
   section_caps.2 (pyD [(.str "rosters", pyL []), (.str "trending", pyD [])])
     [] [] [] [] rfl⟩

/-- Claim C10: the "Key Matchups" section is rendered from the current-week
pairs when any exist; only when there are none is it rendered from the
next-week pairs, which otherwise play no part in the output. -/
theorem key_matchups_current_over_next (cur nxt ru : List (PyVal × PyVal)) :
    (cur = [] → nxt ≠ [] → ∀ ml, build_matchup_lines nxt ru = .ok ml →
      key_matchup_section cur nxt ru =
        .ok (["Key Matchups:"] ++ ml.map (fun m => "â€¢ " ++ m) ++ [""])) ∧
    (cur ≠ [] → ∀ nxt', key_matchup_section cur nxt ru =
      key_matchup_section cur nxt' ru) ∧
    (cur ≠ [] → ∀ ml, build_matchup_lines cur ru = .ok ml →
      key_matchup_section cur nxt ru =
        .ok (["Key Matchups:"] ++ ml.map (fun m => "â€¢ " ++ m) ++ [""])) := by
  refine ⟨?_, ?_, ?_⟩
  · intro hc hn ml hml
    subst hc
    have hne : (nxt.isEmpty) = false := by
      cases nxt with
      | nil => exact absurd rfl hn
      | cons p t => rfl
    simp [key_matchup_section, listOr, hne, hml]
  · intro hc nxt'
    have hce : (cur.isEmpty) = false := by
      cases cur with
      | nil => exact absurd rfl hc
      | cons p t => rfl
    simp [key_matchup_section, listOr, hce]
  · intro hc ml hml
    have hce : (cur.isEmpty) = false := by
      cases cur with
      | nil => exact absurd rfl hc
      | cons p t => rfl
    simp [key_matchup_section, listOr, hce, hml]

/-- Witness for C10 at concrete inputs: an empty current bucket renders the
next-week pair; a non-empty current bucket renders the current pair and is
unaffected by the next bucket. -/
theorem key_matchups_current_over_next_witness :
    (key_matchup_section [] [(rowSolo, PyVal.dict .nil)] [] =
      .ok ["Key Matchups:", "â€¢ Team 4 vs TBD", ""]) ∧
    (key_matchup_section [(rowA, rowB)] [(rowSolo, PyVal.dict .nil)] [] =
      key_matchup_section [(rowA, rowB)] [] []) ∧
    (key_matchup_section [(rowA, rowB)] [(rowSolo, PyVal.dict .nil)] [] =
      .ok ["Key Matchups:", "â€¢ Team 1 vs Team 2 â€” 100.0-95.0", ""]) :=
  ⟨(key_matchups_current_over_next [] [(rowSolo, PyVal.dict .nil)] []).1
      rfl (by decide) ["Team 4 vs TBD"] (by rfl),
   (key_matchups_current_over_next [(rowA, rowB)] [(rowSolo, PyVal.dict .nil)] []).2.1
      (by decide) [],
   (key_matchups_current_over_next [(rowA, rowB)] [(rowSolo, PyVal.dict .nil)] []).2.2
      (by decide) ["Team 1 vs Team 2 â€” 100.0-95.0"] (by rfl)⟩
